import Mathlib

/-!
Verification of the difference-annotation engine of this repository
(src/main.py, class PDFComparer).

The development is a shallow embedding of the Python source:
Python strings are `List Char`, Python floats are `ℚ` (the code only adds,
subtracts, multiplies and compares them), the float-keyed Python dict
`current_x_position` is an association list over `ℚ`, and the
uninitialized-local-variable failure mode of the label loop is an
`Except Unit` error.  External collaborators (pymupdf rendering, PIL
overlay computation, the text differ, and the font measurement function
`pymupdf.get_text_length`) are parameters of the embedded functions.
-/

/-- Python strings, modelled as their character sequences. -/
abbrev PyStr := List Char

/-- pymupdf.Rect: a rectangle given by its four float coordinates. -/
structure Rect where
  x0 : ℚ
  y0 : ℚ
  x1 : ℚ
  y1 : ℚ
deriving DecidableEq

/-- pymupdf: a rectangle is empty when x0 >= x1 or y0 >= y1. -/
def Rect.is_empty (r : Rect) : Bool :=
  decide (r.x0 ≥ r.x1) || decide (r.y0 ≥ r.y1)

/-- pymupdf: a rectangle is infinite when it equals the distinguished
infinite rectangle (FZ_MIN_INF_RECT, FZ_MIN_INF_RECT, FZ_MAX_INF_RECT,
FZ_MAX_INF_RECT). -/
def Rect.is_infinite (r : Rect) : Bool :=
  decide (r.x0 = -2147483648 ∧ r.y0 = -2147483648 ∧
    r.x1 = 2147483520 ∧ r.y1 = 2147483520)

/-- One element of the `word_diffs` sequence consumed by
`add_text_differences`: the tuple `(word, bbox, change_type)`, with the
bounding box split into its four components (only the first two are read
by main.py). -/
structure WordDiff where
  word : PyStr
  bbox0 : ℚ
  bbox1 : ℚ
  bbox2 : ℚ
  bbox3 : ℚ
  change_type : PyStr
deriving DecidableEq

/-- One `page.insert_textbox(rect, text, fontsize=..., color=...)` call
emitted by the label placer. -/
structure LabelCommand where
  rect : Rect
  text : PyStr
  fontsize : ℚ
  color : ℚ × ℚ × ℚ
deriving DecidableEq

/-- main.py line 63: green for added words. -/
def greenColor : ℚ × ℚ × ℚ := (0, 0.8, 0)

/-- main.py line 66: red for removed words. -/
def redColor : ℚ × ℚ × ℚ := (0.8, 0, 0)

/-- main.py line 84: the overlap marker arrow is black. -/
def blackColor : ℚ × ℚ × ℚ := (0, 0, 0)

/-- The change marker prefix of added words. -/
def plusMarker : PyStr := ['+', ' ']

/-- The change marker prefix of removed words. -/
def minusMarker : PyStr := ['-', ' ']

/-- Lookup in the float-keyed Python dict `current_x_position`. -/
def dictLookup : List (ℚ × ℚ) → ℚ → Option ℚ
  | [], _ => none
  | (k, v) :: rest, key => if k = key then some v else dictLookup rest key

/-- Assignment `current_x_position[key] = val` on the Python dict:
update the existing entry, or append a new one. -/
def dictInsert : List (ℚ × ℚ) → ℚ → ℚ → List (ℚ × ℚ)
  | [], key, val => [(key, val)]
  | (k, v) :: rest, key, val =>
    if k = key then (key, val) :: rest else (k, v) :: dictInsert rest key val

/-- main.py lines 62-67: the if/elif without else.  A word with the `"+ "`
marker is green and stripped, one with the `"- "` marker is red and
stripped; any other word leaves the Python locals `text_color` and
`word_text` at whatever the previous loop iteration assigned (`last`),
or unassigned (`none`) on the first iteration. -/
def resolveColorWord (last : Option ((ℚ × ℚ × ℚ) × PyStr)) (w : PyStr) :
    Option ((ℚ × ℚ × ℚ) × PyStr) :=
  if plusMarker.isPrefixOf w then some (greenColor, w.drop 2)
  else if minusMarker.isPrefixOf w then some (redColor, w.drop 2)
  else last

/-- The loop-carried state of `add_text_differences`: the dict
`current_x_position` and the last values assigned to the Python locals
`text_color` / `word_text`. -/
structure DiffState where
  current_x_position : List (ℚ × ℚ)
  last_assigned : Option ((ℚ × ℚ × ℚ) × PyStr)
deriving DecidableEq

/-- main.py lines 76-86: the overlap check and adjustment.  If the line
key `text_pos_y` is present in the dict and the previous extent plus a
one-space margin passes the intended x, emit the black `" >"` arrow label
at the previous extent and push x to `last_x + arrow_width + space_width`;
otherwise keep x.  `gtl` is `pymupdf.get_text_length`. -/
def overlapAdjust (gtl : PyStr → ℚ → ℚ) (font_size : ℚ)
    (pos : List (ℚ × ℚ)) (text_pos_x text_pos_y : ℚ) :
    List LabelCommand × ℚ :=
  match dictLookup pos text_pos_y with
  | none => ([], text_pos_x)
  | some last_x_position =>
    if last_x_position + gtl [' '] font_size > text_pos_x then
      let arrow_width := gtl [' ', '>'] font_size
      let arrow_rect : Rect := ⟨last_x_position, text_pos_y - font_size,
        last_x_position + arrow_width, text_pos_y + font_size * 2⟩
      ([⟨arrow_rect, [' ', '>'], font_size, blackColor⟩],
        last_x_position + arrow_width + gtl [' '] font_size)
    else ([], text_pos_x)

/-- main.py lines 61-92: one iteration of the label loop.  Returns the
textbox commands emitted for this diff and the updated loop state, or an
error when the Python locals `text_color` / `word_text` are read before
any assignment (first diff with neither change marker). -/
def processDiff (gtl : PyStr → ℚ → ℚ) (font_size quality : ℚ)
    (st : DiffState) (d : WordDiff) :
    Except Unit (List LabelCommand × DiffState) :=
  match resolveColorWord st.last_assigned d.word with
  | none => Except.error ()
  | some (text_color, word_text) =>
    let text_width := gtl word_text font_size
    let text_pos_x := d.bbox0 * quality
    let text_pos_y := d.bbox1 * quality
    let adj := overlapAdjust gtl font_size st.current_x_position
      text_pos_x text_pos_y
    let text_rect : Rect := ⟨adj.2, text_pos_y - font_size,
      adj.2 + text_width, text_pos_y + font_size * 2⟩
    let label : LabelCommand :=
      ⟨text_rect, word_text, font_size, text_color⟩
    if !text_rect.is_infinite && !text_rect.is_empty then
      Except.ok (adj.1 ++ [label],
        ⟨dictInsert st.current_x_position text_pos_y (adj.2 + text_width),
          some (text_color, word_text)⟩)
    else
      Except.ok (adj.1, ⟨st.current_x_position, some (text_color, word_text)⟩)

/-- The label loop over a diff list from a given loop state, collecting
all emitted textbox commands in order. -/
def runDiffs (gtl : PyStr → ℚ → ℚ) (font_size quality : ℚ)
    (st : DiffState) : List WordDiff →
    Except Unit (List LabelCommand × DiffState)
  | [] => Except.ok ([], st)
  | d :: ds =>
    match processDiff gtl font_size quality st d with
    | Except.error e => Except.error e
    | Except.ok (cs, st2) =>
      match runDiffs gtl font_size quality st2 ds with
      | Except.error e => Except.error e
      | Except.ok (rest, st3) => Except.ok (cs ++ rest, st3)

/-- main.py lines 57-92, `PDFComparer.add_text_differences`: run the label
loop with a fresh empty `current_x_position` dict and unassigned locals. -/
def add_text_differences (gtl : PyStr → ℚ → ℚ) (font_size quality : ℚ)
    (word_diffs : List WordDiff) :
    Except Unit (List LabelCommand × DiffState) :=
  runDiffs gtl font_size quality ⟨[], none⟩ word_diffs

/-- main.py line 17: `self.font_size = font_size * quality`. -/
def scaled_font_size (font_size quality : ℚ) : ℚ := font_size * quality

/-- A rendered raster image (PIL image): width, height and an abstract
pixel payload. -/
structure RasterImage (P : Type) where
  width : ℚ
  height : ℚ
  pixels : P
deriving DecidableEq

/-- One page of the output document assembled by `compare_pdfs`: its
dimensions (taken from the rendered old image), the optional embedded
overlay image, and the textbox commands drawn onto it. -/
structure OutputPage (P : Type) where
  width : ℚ
  height : ℚ
  background : Option (RasterImage P)
  labels : List LabelCommand
deriving DecidableEq

/-- main.py lines 101-135: the body of the page loop of
`PDFComparer.compare_pdfs` for one page pair.  `renderF`, `overlayF` and
`diffF` are the external collaborators (rendering, overlay computation,
text extraction plus diffing).  Returns the output page when the pair
differs, `none` otherwise; an error of the label loop propagates. -/
def comparePage {Page P : Type} (renderF : Page → RasterImage P)
    (overlayF : RasterImage P → RasterImage P → Option (RasterImage P))
    (diffF : Page → Page → List WordDiff)
    (gtl : PyStr → ℚ → ℚ) (font_size quality : ℚ)
    (old_page new_page : Page) : Except Unit (Option (OutputPage P)) :=
  let old_image := renderF old_page
  let new_image := renderF new_page
  let combined_image := overlayF old_image new_image
  let word_diffs := diffF old_page new_page
  if combined_image.isSome || !word_diffs.isEmpty then
    match (if word_diffs.isEmpty then
        Except.ok ([], (⟨[], none⟩ : DiffState))
      else add_text_differences gtl font_size quality word_diffs) with
    | Except.error e => Except.error e
    | Except.ok (cmds, _) =>
      Except.ok (some ⟨old_image.width, old_image.height,
        combined_image, cmds⟩)
  else
    Except.ok none

/-- main.py line 101: the page loop runs over
`range(min(len(old_doc), len(new_doc)))`; recursing on both page lists
at once stops at the shorter one.  Collects the output pages of the
differing page pairs in page order. -/
def comparePages {Page P : Type} (renderF : Page → RasterImage P)
    (overlayF : RasterImage P → RasterImage P → Option (RasterImage P))
    (diffF : Page → Page → List WordDiff)
    (gtl : PyStr → ℚ → ℚ) (font_size quality : ℚ) :
    List Page → List Page → Except Unit (List (OutputPage P))
  | [], _ => Except.ok []
  | _ :: _, [] => Except.ok []
  | o :: os, n :: ns =>
    match comparePage renderF overlayF diffF gtl font_size quality o n with
    | Except.error e => Except.error e
    | Except.ok r =>
      match comparePages renderF overlayF diffF gtl font_size quality os ns with
      | Except.error e => Except.error e
      | Except.ok rest =>
        match r with
        | some pg => Except.ok (pg :: rest)
        | none => Except.ok rest

/-- main.py lines 94-141, `PDFComparer.compare_pdfs`: compare the page
pairs; if any page differed return the output document (its page list),
otherwise close and discard it (`none`). -/
def compare_pdfs {Page P : Type} (renderF : Page → RasterImage P)
    (overlayF : RasterImage P → RasterImage P → Option (RasterImage P))
    (diffF : Page → Page → List WordDiff)
    (gtl : PyStr → ℚ → ℚ) (font_size quality : ℚ)
    (old_doc new_doc : List Page) :
    Except Unit (Option (List (OutputPage P))) :=
  match comparePages renderF overlayF diffF gtl font_size quality
      old_doc new_doc with
  | Except.error e => Except.error e
  | Except.ok pages =>
    if pages.isEmpty then Except.ok none else Except.ok (some pages)

/-- Modelled from the spec: `pymupdf.open` (external library, not under
src/) fails on a path whose file does not exist; main.py does not catch
this failure anywhere. -/
def pdfOpen (file_exists : Bool) : Except Unit Unit :=
  if file_exists then Except.ok () else Except.error ()

/-- main.py lines 155-175, the pair loop of `PDFComparer.run_comparison`,
reduced to its control flow.  For each old-side file name: if the
same-named new-side file is missing, a message is printed (collected in
the first component) but the loop still calls `compare_pdfs`, whose
`pymupdf.open` on the missing path fails; the failure is uncaught, so
the whole run aborts (`Except.error` names the offending file).  The
second component lists the files whose comparison was actually run. -/
def run_comparison (exists_new : PyStr → Bool) :
    List PyStr → List PyStr × Except PyStr (List PyStr)
  | [] => ([], Except.ok [])
  | f :: fs =>
    let report := if exists_new f then [] else [f]
    match pdfOpen (exists_new f) with
    | Except.error _ => (report, Except.error f)
    | Except.ok _ =>
      let r := run_comparison exists_new fs
      (report ++ r.1,
        match r.2 with
        | Except.ok cs => Except.ok (f :: cs)
        | Except.error e => Except.error e)

/-- Modelled from the spec: `compare_text` in text_comparer (not under
src/) marks each added word with the literal `"+ "` change marker and
each removed word with `"- "`, matching the diff's change-type field. -/
def markedOk (d : WordDiff) : Prop :=
  (d.change_type = ['a', 'd', 'd', 'e', 'd'] ∧
    plusMarker.isPrefixOf d.word = true ∧
    minusMarker.isPrefixOf d.word = false) ∨
  (d.change_type = ['r', 'e', 'm', 'o', 'v', 'e', 'd'] ∧
    minusMarker.isPrefixOf d.word = true ∧
    plusMarker.isPrefixOf d.word = false)

/-- C1: with two word-diffs on the same exact scaled line y = 100, the first
("hello", x = 50, measured width 40) and the second ("world", intended
x = 60), the placer emits the "hello" label spanning x = 50..90, then the
black " >" arrow label with rectangle starting at x = 90 and width
measureText(" >"), and then the "world" label shifted to start at
x = 90 + arrowWidth + measureText(" "). -/
theorem c1_overlap_scenario :
    add_text_differences
      (fun s _ =>
        if s = ['h', 'e', 'l', 'l', 'o'] then 40
        else if s = ['w', 'o', 'r', 'l', 'd'] then 38
        else if s = [' ', '>'] then 8
        else if s = [' '] then 4
        else 0)
      8 1
      [⟨['+', ' ', 'h', 'e', 'l', 'l', 'o'], 50, 100, 55, 101,
          ['a', 'd', 'd', 'e', 'd']⟩,
        ⟨['+', ' ', 'w', 'o', 'r', 'l', 'd'], 60, 100, 65, 101,
          ['a', 'd', 'd', 'e', 'd']⟩] =
    Except.ok
      ([⟨⟨50, 92, 90, 116⟩, ['h', 'e', 'l', 'l', 'o'], 8, greenColor⟩,
        ⟨⟨90, 92, 98, 116⟩, [' ', '>'], 8, blackColor⟩,
        ⟨⟨102, 92, 140, 116⟩, ['w', 'o', 'r', 'l', 'd'], 8, greenColor⟩],
       ⟨[(100, 140)], some (greenColor, ['w', 'o', 'r', 'l', 'd'])⟩) := by
  norm_num +decide [add_text_differences, runDiffs, processDiff,
    resolveColorWord, overlapAdjust, dictLookup, dictInsert,
    Rect.is_empty, Rect.is_infinite, plusMarker, minusMarker]

/-- After a dict assignment, looking up the assigned key returns the
assigned value. -/
theorem dictLookup_insert_self (m : List (ℚ × ℚ)) (k v : ℚ) :
    dictLookup (dictInsert m k v) k = some v := by
  induction m with
  | nil => simp [dictInsert, dictLookup]
  | cons p rest ih =>
    obtain ⟨k1, v1⟩ := p
    by_cases h : k1 = k
    · simp [dictInsert, dictLookup, h]
    · simp [dictInsert, dictLookup, h, ih]

/-- A dict assignment leaves lookups of other keys unchanged. -/
theorem dictLookup_insert_of_ne (m : List (ℚ × ℚ)) (k v k0 : ℚ)
    (h : k ≠ k0) :
    dictLookup (dictInsert m k v) k0 = dictLookup m k0 := by
  induction m with
  | nil => simp [dictInsert, dictLookup, h]
  | cons p rest ih =>
    obtain ⟨k1, v1⟩ := p
    by_cases h1 : k1 = k
    · subst h1
      simp [dictInsert, dictLookup, h]
    · simp [dictInsert, dictLookup, h1, ih]

/-- The overlap adjustment never moves the label left of the previous
extent stored for its line, when measured widths are non-negative. -/
theorem overlapAdjust_lower (gtl : PyStr → ℚ → ℚ) (font_size : ℚ)
    (pos : List (ℚ × ℚ)) (x y lastX : ℚ)
    (hg : ∀ s, 0 ≤ gtl s font_size)
    (hl : dictLookup pos y = some lastX) :
    lastX ≤ (overlapAdjust gtl font_size pos x y).2 := by
  unfold overlapAdjust
  rw [hl]
  by_cases h : lastX + gtl [' '] font_size > x
  · simp only [if_pos h]
    have h1 := hg [' ', '>']
    have h2 := hg [' ']
    linarith
  · simp only [if_neg h]
    push_neg at h
    have h2 := hg [' ']
    linarith

/-- One label-loop step keeps every stored line extent, and never
decreases it, when measured widths are non-negative. -/
theorem processDiff_mono (gtl : PyStr → ℚ → ℚ) (font_size quality : ℚ)
    (st : DiffState) (d : WordDiff) (cs : List LabelCommand)
    (st2 : DiffState) (y v : ℚ)
    (hg : ∀ s, 0 ≤ gtl s font_size)
    (hok : processDiff gtl font_size quality st d = Except.ok (cs, st2))
    (hv : dictLookup st.current_x_position y = some v) :
    ∃ v2, dictLookup st2.current_x_position y = some v2 ∧ v ≤ v2 := by
  unfold processDiff at hok
  cases hcw : resolveColorWord st.last_assigned d.word with
  | none => rw [hcw] at hok; exact absurd hok (by simp)
  | some cw =>
    obtain ⟨text_color, word_text⟩ := cw
    rw [hcw] at hok
    dsimp only at hok
    set adj := overlapAdjust gtl font_size st.current_x_position
      (d.bbox0 * quality) (d.bbox1 * quality) with hadj
    by_cases hr : (!Rect.is_infinite ⟨adj.2, d.bbox1 * quality - font_size,
        adj.2 + gtl word_text font_size, d.bbox1 * quality + font_size * 2⟩ &&
      !Rect.is_empty ⟨adj.2, d.bbox1 * quality - font_size,
        adj.2 + gtl word_text font_size,
        d.bbox1 * quality + font_size * 2⟩) = true
    · rw [if_pos hr] at hok
      have hst2 : st2.current_x_position =
          dictInsert st.current_x_position (d.bbox1 * quality)
            (adj.2 + gtl word_text font_size) := by
        have := congrArg (fun r => match r with
          | Except.ok (p : List LabelCommand × DiffState) =>
            p.2.current_x_position
          | Except.error _ => []) hok
        simpa using this.symm
      by_cases hy : d.bbox1 * quality = y
      · subst hy
        refine ⟨adj.2 + gtl word_text font_size, ?_, ?_⟩
        · rw [hst2, dictLookup_insert_self]
        · have h1 := overlapAdjust_lower gtl font_size
            st.current_x_position (d.bbox0 * quality)
            (d.bbox1 * quality) v hg hv
          have h2 := hg word_text
          rw [← hadj] at h1
          linarith
      · refine ⟨v, ?_, le_refl v⟩
        rw [hst2, dictLookup_insert_of_ne _ _ _ _ hy, hv]
    · rw [if_neg hr] at hok
      have hst2 : st2.current_x_position = st.current_x_position := by
        have := congrArg (fun r => match r with
          | Except.ok (p : List LabelCommand × DiffState) =>
            p.2.current_x_position
          | Except.error _ => []) hok
        simpa using this.symm
      exact ⟨v, by rw [hst2, hv], le_refl v⟩

/-- C2: throughout one page's label pass, the extent stored in
`current_x_position` for any line key is monotonically non-decreasing:
from any loop state, a successful run of the loop over any further diffs
maps every stored extent to a stored extent at least as large, provided
the measured text widths are non-negative. -/
theorem c2_placement_monotone (gtl : PyStr → ℚ → ℚ)
    (font_size quality : ℚ) (ds : List WordDiff) (st : DiffState)
    (cs : List LabelCommand) (st2 : DiffState) (y v : ℚ)
    (hg : ∀ s, 0 ≤ gtl s font_size)
    (hok : runDiffs gtl font_size quality st ds = Except.ok (cs, st2))
    (hv : dictLookup st.current_x_position y = some v) :
    ∃ v2, dictLookup st2.current_x_position y = some v2 ∧ v ≤ v2 := by
  induction ds generalizing st cs v with
  | nil =>
    unfold runDiffs at hok
    obtain ⟨h1, h2⟩ := by simpa using hok
    exact ⟨v, by rw [← h2, hv], le_refl v⟩
  | cons d rest ih =>
    unfold runDiffs at hok
    cases h1 : processDiff gtl font_size quality st d with
    | error e => rw [h1] at hok; exact absurd hok (by simp)
    | ok p =>
      obtain ⟨cs1, stm⟩ := p
      rw [h1] at hok
      dsimp only at hok
      cases h2 : runDiffs gtl font_size quality stm rest with
      | error e => rw [h2] at hok; exact absurd hok (by simp)
      | ok q =>
        obtain ⟨cs2, stf⟩ := q
        rw [h2] at hok
        dsimp only at hok
        obtain ⟨hcs, hst⟩ : cs1 ++ cs2 = cs ∧ stf = st2 := by
          simpa using hok
        subst hst
        obtain ⟨vm, hvm, hle1⟩ :=
          processDiff_mono gtl font_size quality st d cs1 stm y v hg h1 hv
        obtain ⟨v2, hv2, hle2⟩ := ih stm cs2 vm h2 hvm
        exact ⟨v2, hv2, le_trans hle1 hle2⟩

/-- Every command produced by the overlap adjustment alone is the black
" >" arrow label. -/
theorem overlapAdjust_cmds (gtl : PyStr → ℚ → ℚ) (font_size : ℚ)
    (pos : List (ℚ × ℚ)) (x y : ℚ) :
    ∀ c ∈ (overlapAdjust gtl font_size pos x y).1,
      c.text = [' ', '>'] ∧ c.color = blackColor := by
  unfold overlapAdjust
  cases dictLookup pos y with
  | none => simp
  | some lastX =>
    by_cases h : lastX + gtl [' '] font_size > x
    · simp [if_pos h]
    · simp [if_neg h]

/-- C3 counterexample: a word-diff with empty word text whose label
rectangle is empty still causes a label command to be emitted while it is
processed (the black overlap arrow), so "emits no label command for that
diff" fails; the placement state is indeed left unchanged. -/
theorem c3_counterexample :
    processDiff
      (fun s _ => if s = [' ', '>'] then 8 else if s = [' '] then 4 else 0)
      8 1 ⟨[(100, 90)], none⟩
      ⟨['+', ' '], 60, 100, 60, 101, ['a', 'd', 'd', 'e', 'd']⟩ =
      Except.ok ([⟨⟨90, 92, 98, 116⟩, [' ', '>'], 8, blackColor⟩],
        ⟨[(100, 90)], some (greenColor, [])⟩) ∧
    Rect.is_empty ⟨102, 92, 102, 116⟩ = true ∧
    ([⟨⟨90, 92, 98, 116⟩, [' ', '>'], 8, blackColor⟩] :
      List LabelCommand) ≠ [] := by
  refine ⟨?_, by norm_num [Rect.is_empty], by simp⟩
  norm_num +decide [processDiff, resolveColorWord, overlapAdjust,
    dictLookup, Rect.is_empty, Rect.is_infinite, plusMarker, minusMarker]

/-- C3 (amended): when a diff's computed label rectangle is infinite or
empty, the placer emits no label for the diff's own word (anything it
emits is the black overlap arrow) and leaves the placement state
unchanged; when the rectangle is finite and non-empty, it emits the word
label and stores x + textWidth under the diff's line key. -/
theorem c3_degenerate_drop (gtl : PyStr → ℚ → ℚ)
    (font_size quality : ℚ) (st : DiffState) (d : WordDiff)
    (cs : List LabelCommand) (st2 : DiffState)
    (text_color : ℚ × ℚ × ℚ) (word_text : PyStr) (x : ℚ) (r : Rect)
    (hcw : resolveColorWord st.last_assigned d.word =
      some (text_color, word_text))
    (hok : processDiff gtl font_size quality st d = Except.ok (cs, st2))
    (hx : x = (overlapAdjust gtl font_size st.current_x_position
      (d.bbox0 * quality) (d.bbox1 * quality)).2)
    (hr : r = ⟨x, d.bbox1 * quality - font_size,
      x + gtl word_text font_size, d.bbox1 * quality + font_size * 2⟩) :
    ((Rect.is_infinite r || Rect.is_empty r) = true →
      st2.current_x_position = st.current_x_position ∧
      ∀ c ∈ cs, c.text = [' ', '>'] ∧ c.color = blackColor) ∧
    ((Rect.is_infinite r || Rect.is_empty r) = false →
      st2.current_x_position =
        dictInsert st.current_x_position (d.bbox1 * quality)
          (x + gtl word_text font_size) ∧
      cs.getLast? = some ⟨r, word_text, font_size, text_color⟩) := by
  subst hx
  subst hr
  unfold processDiff at hok
  rw [hcw] at hok
  dsimp only at hok
  constructor
  · intro hdeg
    rw [show (!Rect.is_infinite ⟨(overlapAdjust gtl font_size
        st.current_x_position (d.bbox0 * quality) (d.bbox1 * quality)).2,
        d.bbox1 * quality - font_size,
        (overlapAdjust gtl font_size st.current_x_position
          (d.bbox0 * quality) (d.bbox1 * quality)).2 +
          gtl word_text font_size,
        d.bbox1 * quality + font_size * 2⟩ &&
      !Rect.is_empty ⟨(overlapAdjust gtl font_size st.current_x_position
        (d.bbox0 * quality) (d.bbox1 * quality)).2,
        d.bbox1 * quality - font_size,
        (overlapAdjust gtl font_size st.current_x_position
          (d.bbox0 * quality) (d.bbox1 * quality)).2 +
          gtl word_text font_size,
        d.bbox1 * quality + font_size * 2⟩) = false from by
      rw [← Bool.not_or, hdeg]; rfl] at hok
    rw [if_neg (by simp)] at hok
    obtain ⟨hcs, hst⟩ : (overlapAdjust gtl font_size st.current_x_position
        (d.bbox0 * quality) (d.bbox1 * quality)).1 = cs ∧
        (⟨st.current_x_position, some (text_color, word_text)⟩ :
          DiffState) = st2 := by
      simpa using hok
    subst hst
    refine ⟨rfl, ?_⟩
    rw [← hcs]
    exact overlapAdjust_cmds gtl font_size st.current_x_position
      (d.bbox0 * quality) (d.bbox1 * quality)
  · intro hdeg
    rw [show (!Rect.is_infinite ⟨(overlapAdjust gtl font_size
        st.current_x_position (d.bbox0 * quality) (d.bbox1 * quality)).2,
        d.bbox1 * quality - font_size,
        (overlapAdjust gtl font_size st.current_x_position
          (d.bbox0 * quality) (d.bbox1 * quality)).2 +
          gtl word_text font_size,
        d.bbox1 * quality + font_size * 2⟩ &&
      !Rect.is_empty ⟨(overlapAdjust gtl font_size st.current_x_position
        (d.bbox0 * quality) (d.bbox1 * quality)).2,
        d.bbox1 * quality - font_size,
        (overlapAdjust gtl font_size st.current_x_position
          (d.bbox0 * quality) (d.bbox1 * quality)).2 +
          gtl word_text font_size,
        d.bbox1 * quality + font_size * 2⟩) = true from by
      rw [← Bool.not_or, hdeg]; rfl] at hok
    rw [if_pos rfl] at hok
    obtain ⟨hcs, hst⟩ := by simpa using hok
    subst hst
    refine ⟨rfl, ?_⟩
    rw [← hcs]
    simp [List.getLast?_concat]

/-- Witness for c3_degenerate_drop: the empty-word diff of the
counterexample scenario leaves the placement state unchanged and emits
only arrow commands. -/
theorem c3_degenerate_drop_witness :
    ([((100 : ℚ), (90 : ℚ))]) = [((100 : ℚ), (90 : ℚ))] ∧
    ∀ c ∈ [(⟨⟨90, 92, 98, 116⟩, [' ', '>'], 8, blackColor⟩ : LabelCommand)],
      c.text = [' ', '>'] ∧ c.color = blackColor :=
  (c3_degenerate_drop
    (fun s _ => if s = [' ', '>'] then 8 else if s = [' '] then 4 else 0)
    8 1 ⟨[(100, 90)], none⟩
    ⟨['+', ' '], 60, 100, 60, 101, ['a', 'd', 'd', 'e', 'd']⟩
    [⟨⟨90, 92, 98, 116⟩, [' ', '>'], 8, blackColor⟩]
    ⟨[(100, 90)], some (greenColor, [])⟩ greenColor [] 102
    ⟨102, 92, 102, 116⟩
    (by norm_num +decide [resolveColorWord, plusMarker, minusMarker])
    (by norm_num +decide [processDiff, resolveColorWord, overlapAdjust,
      dictLookup, Rect.is_empty, Rect.is_infinite, plusMarker,
      minusMarker])
    (by norm_num +decide [overlapAdjust, dictLookup])
    (by norm_num +decide)).1
    (by norm_num [Rect.is_empty])

/-- C4: with old-side files "a" and "b" and only "b" present on the new
side, the pair loop prints the missing-counterpart report for "a" (first
component) but does not skip the pair: it still runs the comparison,
whose open of the missing path fails uncaught, so the whole batch aborts
at "a" and "b" is never compared — the second run shows "b" would have
been compared had it been reached. -/
theorem c4_missing_counterpart_aborts :
    run_comparison (fun f => decide (f = ['b'])) [['a'], ['b']] =
      ([['a']], Except.error ['a']) ∧
    run_comparison (fun f => decide (f = ['b'])) [['b']] =
      ([], Except.ok [['b']]) := by
  constructor <;>
    norm_num +decide [run_comparison, pdfOpen]

/-- C5 counterexample: with quality 2 and base font size 8, a second diff
on the same line with bounding-box x = 30 (intended x = 60) collides with
the previous label ending at 90, and its emitted label rectangle starts
at x = 106, not at bbox.x * quality = 60. -/
theorem c5_counterexample :
    add_text_differences
      (fun s _ =>
        if s = ['a', 'l', 'p', 'h', 'a'] then 40
        else if s = ['b', 'e', 't', 'a'] then 30
        else if s = [' ', '>'] then 10
        else if s = [' '] then 6
        else 0)
      (scaled_font_size 8 2) 2
      [⟨['+', ' ', 'a', 'l', 'p', 'h', 'a'], 25, 50, 26, 51,
          ['a', 'd', 'd', 'e', 'd']⟩,
        ⟨['+', ' ', 'b', 'e', 't', 'a'], 30, 50, 31, 51,
          ['a', 'd', 'd', 'e', 'd']⟩] =
    Except.ok
      ([⟨⟨50, 84, 90, 132⟩, ['a', 'l', 'p', 'h', 'a'], 16, greenColor⟩,
        ⟨⟨90, 84, 100, 132⟩, [' ', '>'], 16, blackColor⟩,
        ⟨⟨106, 84, 136, 132⟩, ['b', 'e', 't', 'a'], 16, greenColor⟩],
       ⟨[(100, 136)], some (greenColor, ['b', 'e', 't', 'a'])⟩) ∧
    (106 : ℚ) ≠ 30 * 2 := by
  constructor
  · norm_num +decide [add_text_differences, runDiffs, processDiff,
      resolveColorWord, overlapAdjust, dictLookup, dictInsert,
      Rect.is_empty, Rect.is_infinite, plusMarker, minusMarker,
      scaled_font_size]
  · norm_num

/-- C5 (amended): for every word-diff that undergoes no overlap
adjustment, every command emitted while processing it has its rectangle
top-left at (bbox.x * quality, bbox.y * quality - fontSize * quality),
with the font size pre-scaled by the same quality factor. -/
theorem c5_scaling_linearity (gtl : PyStr → ℚ → ℚ)
    (font_size quality : ℚ) (st : DiffState) (d : WordDiff)
    (cs : List LabelCommand) (st2 : DiffState)
    (hok : processDiff gtl (scaled_font_size font_size quality) quality
      st d = Except.ok (cs, st2))
    (hnoadj : overlapAdjust gtl (scaled_font_size font_size quality)
      st.current_x_position (d.bbox0 * quality) (d.bbox1 * quality) =
      ([], d.bbox0 * quality)) :
    ∀ c ∈ cs, c.rect.x0 = d.bbox0 * quality ∧
      c.rect.y0 = d.bbox1 * quality - font_size * quality := by
  unfold processDiff at hok
  cases hcw : resolveColorWord st.last_assigned d.word with
  | none => rw [hcw] at hok; exact absurd hok (by simp)
  | some cw =>
    obtain ⟨tc, wt⟩ := cw
    rw [hcw] at hok
    dsimp only at hok
    rw [hnoadj] at hok
    dsimp only at hok
    split at hok
    · obtain ⟨hcs, hst⟩ : [(⟨⟨d.bbox0 * quality,
          d.bbox1 * quality - scaled_font_size font_size quality,
          d.bbox0 * quality + gtl wt (scaled_font_size font_size quality),
          d.bbox1 * quality + scaled_font_size font_size quality * 2⟩,
          wt, scaled_font_size font_size quality, tc⟩ :
            LabelCommand)] = cs ∧ _ = st2 := by
        simpa using hok
      rw [← hcs]
      intro c hc
      simp only [List.mem_singleton] at hc
      subst hc
      exact ⟨rfl, by rw [scaled_font_size]⟩
    · obtain ⟨hcs, hst⟩ : ([] : List LabelCommand) = cs ∧ _ = st2 := by
        simpa using hok
      rw [← hcs]
      simp

/-- Witness for c5_scaling_linearity: a lone diff with bounding box
(30, 50) at quality 2 and base font size 8 gets its label top-left at
(60, 84) = (30 * 2, 50 * 2 - 8 * 2). -/
theorem c5_scaling_linearity_witness :
    (⟨⟨60, 84, 62, 132⟩, ['h', 'i'], 16, greenColor⟩ :
        LabelCommand).rect.x0 = (30 : ℚ) * 2 ∧
    (⟨⟨60, 84, 62, 132⟩, ['h', 'i'], 16, greenColor⟩ :
        LabelCommand).rect.y0 = (50 : ℚ) * 2 - 8 * 2 :=
  c5_scaling_linearity (fun s _ => (s.length : ℚ)) 8 2 ⟨[], none⟩
    ⟨['+', ' ', 'h', 'i'], 30, 50, 31, 51, ['a', 'd', 'd', 'e', 'd']⟩
    [⟨⟨60, 84, 62, 132⟩, ['h', 'i'], 16, greenColor⟩]
    ⟨[(100, 62)], some (greenColor, ['h', 'i'])⟩
    (by norm_num +decide [processDiff, resolveColorWord, overlapAdjust,
      dictLookup, dictInsert, Rect.is_empty, Rect.is_infinite,
      plusMarker, minusMarker, scaled_font_size])
    (by norm_num +decide [overlapAdjust, dictLookup, scaled_font_size])
    ⟨⟨60, 84, 62, 132⟩, ['h', 'i'], 16, greenColor⟩ (by simp)

/-- Bind on an ok Except value applies the continuation. -/
theorem exceptBindOk {ε α β : Type} (a : α) (g : α → Except ε β) :
    (Except.ok a >>= g) = g a := rfl

/-- Bind on an error Except value keeps the error. -/
theorem exceptBindErr {ε α β : Type} (e : ε) (g : α → Except ε β) :
    ((Except.error e : Except ε α) >>= g) = Except.error e := rfl

/-- Pure of the Except monad is ok. -/
theorem exceptPure {ε α : Type} (a : α) :
    (pure a : Except ε α) = Except.ok a := rfl

/-- Map over an ok Except value. -/
theorem exceptMapOk {ε α β : Type} (f : α → β) (a : α) :
    Except.map f (Except.ok a : Except ε α) = Except.ok (f a) := rfl

/-- Map over an error Except value. -/
theorem exceptMapErr {ε α β : Type} (f : α → β) (e : ε) :
    Except.map f (Except.error e : Except ε α) = Except.error e := rfl

/-- The page loop is exactly a monadic map of the page comparison over
the zipped page lists, keeping the pages of the differing pairs. -/
theorem comparePages_zip {Page P : Type} (renderF : Page → RasterImage P)
    (overlayF : RasterImage P → RasterImage P → Option (RasterImage P))
    (diffF : Page → Page → List WordDiff)
    (gtl : PyStr → ℚ → ℚ) (font_size quality : ℚ)
    (old_doc : List Page) : ∀ new_doc : List Page,
    comparePages renderF overlayF diffF gtl font_size quality
      old_doc new_doc =
    Except.map (fun l => l.filterMap id)
      ((old_doc.zip new_doc).mapM (fun pr =>
        comparePage renderF overlayF diffF gtl font_size quality
          pr.1 pr.2)) := by
  induction old_doc with
  | nil =>
    intro l
    simp [comparePages, List.mapM, List.mapM.loop, exceptPure, exceptMapOk]
  | cons o os ih =>
    intro l
    cases l with
    | nil =>
      simp [comparePages, List.mapM, List.mapM.loop, exceptPure, exceptMapOk]
    | cons n ns =>
      rw [show (o :: os).zip (n :: ns) = (o, n) :: os.zip ns from rfl]
      rw [List.mapM_cons]
      cases hc : comparePage renderF overlayF diffF gtl font_size quality
          o n with
      | error e =>
        simp only [comparePages, hc, exceptBindErr, exceptMapErr]
      | ok r =>
        simp only [comparePages, hc, exceptBindOk]
        rw [ih ns]
        cases hm : (os.zip ns).mapM (fun pr =>
            comparePage renderF overlayF diffF gtl font_size quality
              pr.1 pr.2) with
        | error e =>
          cases r <;>
            simp [exceptBindErr, exceptBindOk, exceptMapErr]
        | ok rest =>
          cases r <;>
            simp [exceptBindErr, exceptBindOk, exceptMapOk, exceptPure,
              List.filterMap_cons]

/-- Zipping the min-length truncations of two lists is zipping the lists
themselves. -/
theorem zip_take_min {α β : Type} (l1 : List α) : ∀ l2 : List β,
    (l1.take (min l1.length l2.length)).zip
      (l2.take (min l1.length l2.length)) = l1.zip l2 := by
  induction l1 with
  | nil => intro l2; simp
  | cons a t ih =>
    intro l2
    cases l2 with
    | nil => simp
    | cons b t2 =>
      simp [Nat.succ_min_succ, List.take_succ_cons, ih t2]

/-- C6: comparing two documents only compares the first
min(pageCount(old), pageCount(new)) page pairs — truncating both inputs
to that length does not change the result — and the page loop is the
in-order monadic map of the page comparison over the zipped page lists,
so pages beyond the shorter document are never compared and never
surface differences. -/
theorem c6_page_truncation {Page P : Type} (renderF : Page → RasterImage P)
    (overlayF : RasterImage P → RasterImage P → Option (RasterImage P))
    (diffF : Page → Page → List WordDiff)
    (gtl : PyStr → ℚ → ℚ) (font_size quality : ℚ)
    (old_doc new_doc : List Page) :
    compare_pdfs renderF overlayF diffF gtl font_size quality
      old_doc new_doc =
      compare_pdfs renderF overlayF diffF gtl font_size quality
        (old_doc.take (min old_doc.length new_doc.length))
        (new_doc.take (min old_doc.length new_doc.length)) ∧
    comparePages renderF overlayF diffF gtl font_size quality
      old_doc new_doc =
      Except.map (fun l => l.filterMap id)
        ((old_doc.zip new_doc).mapM (fun pr =>
          comparePage renderF overlayF diffF gtl font_size quality
            pr.1 pr.2)) := by
  refine ⟨?_, comparePages_zip renderF overlayF diffF gtl font_size
    quality old_doc new_doc⟩
  unfold compare_pdfs
  rw [comparePages_zip renderF overlayF diffF gtl font_size quality
    old_doc new_doc]
  rw [comparePages_zip renderF overlayF diffF gtl font_size quality
    (old_doc.take (min old_doc.length new_doc.length))
    (new_doc.take (min old_doc.length new_doc.length))]
  rw [zip_take_min]

/-- A page pair with no overlay and no word diffs produces no output
page. -/
theorem comparePage_trivial {Page P : Type} (renderF : Page → RasterImage P)
    (overlayF : RasterImage P → RasterImage P → Option (RasterImage P))
    (diffF : Page → Page → List WordDiff)
    (gtl : PyStr → ℚ → ℚ) (font_size quality : ℚ) (o n : Page)
    (h1 : overlayF (renderF o) (renderF n) = none)
    (h2 : diffF o n = []) :
    comparePage renderF overlayF diffF gtl font_size quality o n =
      Except.ok none := by
  simp [comparePage, h1, h2]

/-- A successfully compared page pair with an overlay or a non-empty diff
sequence produces an output page. -/
theorem comparePage_differing {Page P : Type}
    (renderF : Page → RasterImage P)
    (overlayF : RasterImage P → RasterImage P → Option (RasterImage P))
    (diffF : Page → Page → List WordDiff)
    (gtl : PyStr → ℚ → ℚ) (font_size quality : ℚ) (o n : Page)
    (r : Option (OutputPage P))
    (hok : comparePage renderF overlayF diffF gtl font_size quality o n =
      Except.ok r)
    (hd : overlayF (renderF o) (renderF n) ≠ none ∨ diffF o n ≠ []) :
    ∃ pg, r = some pg := by
  unfold comparePage at hok
  have hcond : ((overlayF (renderF o) (renderF n)).isSome ||
      !(diffF o n).isEmpty) = true := by
    cases hd with
    | inl h => simp [Option.isSome_iff_ne_none, h]
    | inr h => simp [h]
  rw [if_pos hcond] at hok
  split at hok
  · exact absurd hok (by simp)
  · exact ⟨_, by simpa using hok.symm⟩

/-- If every zipped page pair is trivial, the page loop returns no output
pages. -/
theorem comparePages_trivial {Page P : Type}
    (renderF : Page → RasterImage P)
    (overlayF : RasterImage P → RasterImage P → Option (RasterImage P))
    (diffF : Page → Page → List WordDiff)
    (gtl : PyStr → ℚ → ℚ) (font_size quality : ℚ)
    (old_doc : List Page) : ∀ new_doc : List Page,
    (∀ pr ∈ old_doc.zip new_doc,
      overlayF (renderF pr.1) (renderF pr.2) = none ∧ diffF pr.1 pr.2 = []) →
    comparePages renderF overlayF diffF gtl font_size quality
      old_doc new_doc = Except.ok [] := by
  induction old_doc with
  | nil => intro l _; simp [comparePages]
  | cons o os ih =>
    intro l h
    cases l with
    | nil => simp [comparePages]
    | cons n ns =>
      have h0 := h (o, n) (by simp)
      have hrec := ih ns (fun pr hpr => h pr (by simp [hpr]))
      simp only [comparePages,
        comparePage_trivial renderF overlayF diffF gtl font_size quality
          o n h0.1 h0.2, hrec]

/-- If the page loop succeeds and some zipped page pair differs, its
output page list is non-empty. -/
theorem comparePages_differing {Page P : Type}
    (renderF : Page → RasterImage P)
    (overlayF : RasterImage P → RasterImage P → Option (RasterImage P))
    (diffF : Page → Page → List WordDiff)
    (gtl : PyStr → ℚ → ℚ) (font_size quality : ℚ)
    (old_doc : List Page) :
    ∀ (new_doc : List Page) (pages : List (OutputPage P))
      (pr : Page × Page),
    comparePages renderF overlayF diffF gtl font_size quality
      old_doc new_doc = Except.ok pages →
    pr ∈ old_doc.zip new_doc →
    (overlayF (renderF pr.1) (renderF pr.2) ≠ none ∨ diffF pr.1 pr.2 ≠ []) →
    pages ≠ [] := by
  induction old_doc with
  | nil => intro l pages pr _ hpr; simp at hpr
  | cons o os ih =>
    intro l pages pr hok hpr hd
    cases l with
    | nil => simp at hpr
    | cons n ns =>
      rw [show (o :: os).zip (n :: ns) = (o, n) :: os.zip ns from rfl]
        at hpr
      unfold comparePages at hok
      cases hc : comparePage renderF overlayF diffF gtl font_size quality
          o n with
      | error e => rw [hc] at hok; exact absurd hok (by simp)
      | ok r =>
        rw [hc] at hok
        dsimp only at hok
        cases hm : comparePages renderF overlayF diffF gtl font_size
            quality os ns with
        | error e => rw [hm] at hok; exact absurd hok (by simp)
        | ok rest =>
          rw [hm] at hok
          dsimp only at hok
          rcases List.mem_cons.mp hpr with heq | hmem
          · subst heq
            obtain ⟨pg, hpg⟩ := comparePage_differing renderF overlayF
              diffF gtl font_size quality o n r hc hd
            subst hpg
            have hp : pg :: rest = pages := by simpa using hok
            rw [← hp]
            simp
          · have hrest := ih ns rest pr hm hmem hd
            cases r with
            | some pg =>
              have hp : pg :: rest = pages := by simpa using hok
              rw [← hp]
              simp
            | none =>
              have hp : rest = pages := by simpa using hok
              rw [← hp]
              exact hrest

/-- C7: if the overlay is none and the word-diff sequence is empty for
every compared page pair, the document comparison reports no differences
and returns no output document; conversely, on a successful run, any
compared page pair with an overlay or a non-empty diff sequence forces a
returned output document, and a returned output document always has at
least one page. -/
theorem c7_noop_identity {Page P : Type} (renderF : Page → RasterImage P)
    (overlayF : RasterImage P → RasterImage P → Option (RasterImage P))
    (diffF : Page → Page → List WordDiff)
    (gtl : PyStr → ℚ → ℚ) (font_size quality : ℚ)
    (old_doc new_doc : List Page) :
    ((∀ pr ∈ old_doc.zip new_doc,
        overlayF (renderF pr.1) (renderF pr.2) = none ∧
        diffF pr.1 pr.2 = []) →
      compare_pdfs renderF overlayF diffF gtl font_size quality
        old_doc new_doc = Except.ok none) ∧
    (∀ res, compare_pdfs renderF overlayF diffF gtl font_size quality
        old_doc new_doc = Except.ok res →
      ∀ pr ∈ old_doc.zip new_doc,
        (overlayF (renderF pr.1) (renderF pr.2) ≠ none ∨
          diffF pr.1 pr.2 ≠ []) →
        res ≠ none) ∧
    (∀ pages, compare_pdfs renderF overlayF diffF gtl font_size quality
        old_doc new_doc = Except.ok (some pages) → pages ≠ []) := by
  refine ⟨?_, ?_, ?_⟩
  · intro h
    unfold compare_pdfs
    rw [comparePages_trivial renderF overlayF diffF gtl font_size quality
      old_doc new_doc h]
    simp
  · intro res hres pr hpr hd
    unfold compare_pdfs at hres
    cases hcp : comparePages renderF overlayF diffF gtl font_size quality
        old_doc new_doc with
    | error e => rw [hcp] at hres; exact absurd hres (by simp)
    | ok pages =>
      rw [hcp] at hres
      dsimp only at hres
      have hne := comparePages_differing renderF overlayF diffF gtl
        font_size quality old_doc new_doc pages pr hcp hpr hd
      rw [if_neg (by simpa using hne)] at hres
      have h : some pages = res := by simpa using hres
      rw [← h]
      simp
  · intro pages hps
    unfold compare_pdfs at hps
    cases hcp : comparePages renderF overlayF diffF gtl font_size quality
        old_doc new_doc with
    | error e => rw [hcp] at hps; exact absurd hps (by simp)
    | ok l =>
      rw [hcp] at hps
      dsimp only at hps
      by_cases hl : l.isEmpty
      · rw [if_pos hl] at hps; exact absurd hps (by simp)
      · rw [if_neg hl] at hps
        have h : l = pages := by simpa using hps
        rw [← h]
        simpa using hl

/-- Witness for c7_noop_identity: one trivial page pair yields no output
document, and with an overlay present the same pair yields one. -/
theorem c7_noop_identity_witness :
    compare_pdfs (fun _ : ℕ => (⟨10, 20, ()⟩ : RasterImage Unit))
      (fun _ _ => none) (fun _ _ => []) (fun _ _ => 0) 8 2 [0] [0] =
      Except.ok none ∧
    (some [(⟨10, 20, some ⟨10, 20, ()⟩, []⟩ : OutputPage Unit)] :
      Option (List (OutputPage Unit))) ≠ none :=
  ⟨(c7_noop_identity (fun _ : ℕ => (⟨10, 20, ()⟩ : RasterImage Unit))
      (fun _ _ => none) (fun _ _ => []) (fun _ _ => 0) 8 2 [0] [0]).1
      (by simp),
    (c7_noop_identity (fun _ : ℕ => (⟨10, 20, ()⟩ : RasterImage Unit))
      (fun _ _ => some ⟨10, 20, ()⟩) (fun _ _ => []) (fun _ _ => 0) 8 2
      [0] [0]).2.1
      (some [⟨10, 20, some ⟨10, 20, ()⟩, []⟩])
      (by norm_num +decide [compare_pdfs, comparePages, comparePage])
      (0, 0) (by simp) (Or.inl (by simp))⟩

/-- C9: the document comparison is a pure function of its collaborators
and inputs — with deterministic (equal) renderer, overlay, text-differ
and font-measurement collaborators and equal inputs, two runs produce
the same result: the same output pages with the same label command
sequences, and the same differences-found outcome. -/
theorem c9_deterministic_rerun {Page P : Type}
    (renderF1 renderF2 : Page → RasterImage P)
    (overlayF1 overlayF2 :
      RasterImage P → RasterImage P → Option (RasterImage P))
    (diffF1 diffF2 : Page → Page → List WordDiff)
    (gtl1 gtl2 : PyStr → ℚ → ℚ)
    (font_size1 font_size2 quality1 quality2 : ℚ)
    (old1 old2 new1 new2 : List Page)
    (hR : renderF1 = renderF2) (hO : overlayF1 = overlayF2)
    (hD : diffF1 = diffF2) (hg : gtl1 = gtl2)
    (hf : font_size1 = font_size2) (hq : quality1 = quality2)
    (ho : old1 = old2) (hn : new1 = new2) :
    compare_pdfs renderF1 overlayF1 diffF1 gtl1 font_size1 quality1
      old1 new1 =
    compare_pdfs renderF2 overlayF2 diffF2 gtl2 font_size2 quality2
      old2 new2 := by
  subst hR
  subst hO
  subst hD
  subst hg
  subst hf
  subst hq
  subst ho
  subst hn
  rfl

/-- Witness for c9_deterministic_rerun at a concrete one-page input. -/
theorem c9_deterministic_rerun_witness :
    compare_pdfs (fun _ : ℕ => (⟨10, 20, ()⟩ : RasterImage Unit))
      (fun _ _ => none) (fun _ _ => []) (fun _ _ => 0) 8 2 [0] [0] =
    compare_pdfs (fun _ : ℕ => (⟨10, 20, ()⟩ : RasterImage Unit))
      (fun _ _ => none) (fun _ _ => []) (fun _ _ => 0) 8 2 [0] [0] :=
  c9_deterministic_rerun _ _ _ _ _ _ _ _ _ _ _ _ _ _ _ _
    rfl rfl rfl rfl rfl rfl rfl rfl

/-- Every command emitted by one label-loop step is either the black
arrow or carries the color the step resolved for the diff's word. -/
theorem processDiff_cmds (gtl : PyStr → ℚ → ℚ) (font_size quality : ℚ)
    (st : DiffState) (d : WordDiff) (cs : List LabelCommand)
    (st2 : DiffState) (tc : ℚ × ℚ × ℚ) (wt : PyStr)
    (hcw : resolveColorWord st.last_assigned d.word = some (tc, wt))
    (hok : processDiff gtl font_size quality st d = Except.ok (cs, st2)) :
    ∀ c ∈ cs,
      (c.text = [' ', '>'] ∧ c.color = blackColor) ∨ c.color = tc := by
  unfold processDiff at hok
  rw [hcw] at hok
  dsimp only at hok
  split at hok
  · obtain ⟨hcs, hst⟩ :
        (overlapAdjust gtl font_size st.current_x_position
          (d.bbox0 * quality) (d.bbox1 * quality)).1 ++
          [(⟨⟨(overlapAdjust gtl font_size st.current_x_position
              (d.bbox0 * quality) (d.bbox1 * quality)).2,
            d.bbox1 * quality - font_size,
            (overlapAdjust gtl font_size st.current_x_position
              (d.bbox0 * quality) (d.bbox1 * quality)).2 +
              gtl wt font_size,
            d.bbox1 * quality + font_size * 2⟩, wt, font_size, tc⟩ :
              LabelCommand)] = cs ∧ _ = st2 := by
      simpa using hok
    intro c hc
    rw [← hcs] at hc
    rcases List.mem_append.mp hc with h | h
    · exact Or.inl (overlapAdjust_cmds gtl font_size
        st.current_x_position (d.bbox0 * quality) (d.bbox1 * quality) c h)
    · rw [List.mem_singleton] at h
      subst h
      exact Or.inr rfl
  · obtain ⟨hcs, hst⟩ :
        (overlapAdjust gtl font_size st.current_x_position
          (d.bbox0 * quality) (d.bbox1 * quality)).1 = cs ∧ _ = st2 := by
      simpa using hok
    intro c hc
    rw [← hcs] at hc
    exact Or.inl (overlapAdjust_cmds gtl font_size
      st.current_x_position (d.bbox0 * quality) (d.bbox1 * quality) c hc)

/-- C8: for every word-diff whose change marker matches its change type,
every command emitted while processing it is either the black " >"
overlap arrow, or — for an added diff — a green label, or — for a
removed diff — a red label. -/
theorem c8_color_mapping (gtl : PyStr → ℚ → ℚ) (font_size quality : ℚ)
    (st : DiffState) (d : WordDiff) (cs : List LabelCommand)
    (st2 : DiffState)
    (hm : markedOk d)
    (hok : processDiff gtl font_size quality st d = Except.ok (cs, st2)) :
    ∀ c ∈ cs,
      (c.text = [' ', '>'] ∧ c.color = blackColor) ∨
      (d.change_type = ['a', 'd', 'd', 'e', 'd'] ∧
        c.color = greenColor) ∨
      (d.change_type = ['r', 'e', 'm', 'o', 'v', 'e', 'd'] ∧
        c.color = redColor) := by
  rcases hm with ⟨hct, hp, hnm⟩ | ⟨hct, hmv, hnp⟩
  · have hcw : resolveColorWord st.last_assigned d.word =
        some (greenColor, d.word.drop 2) := by
      simp [resolveColorWord, hp]
    intro c hc
    rcases processDiff_cmds gtl font_size quality st d cs st2 greenColor
        (d.word.drop 2) hcw hok c hc with h | h
    · exact Or.inl h
    · exact Or.inr (Or.inl ⟨hct, h⟩)
  · have hcw : resolveColorWord st.last_assigned d.word =
        some (redColor, d.word.drop 2) := by
      simp [resolveColorWord, hnp, hmv]
    intro c hc
    rcases processDiff_cmds gtl font_size quality st d cs st2 redColor
        (d.word.drop 2) hcw hok c hc with h | h
    · exact Or.inl h
    · exact Or.inr (Or.inr ⟨hct, h⟩)

/-- Witness for c8_color_mapping: an added diff yields its green label. -/
theorem c8_color_mapping_witness :
    ((⟨⟨30, 92, 32, 116⟩, ['h', 'i'], 8, greenColor⟩ :
        LabelCommand).text = [' ', '>'] ∧
      (⟨⟨30, 92, 32, 116⟩, ['h', 'i'], 8, greenColor⟩ :
        LabelCommand).color = blackColor) ∨
    ((['a', 'd', 'd', 'e', 'd'] : PyStr) = ['a', 'd', 'd', 'e', 'd'] ∧
      (⟨⟨30, 92, 32, 116⟩, ['h', 'i'], 8, greenColor⟩ :
        LabelCommand).color = greenColor) ∨
    ((['a', 'd', 'd', 'e', 'd'] : PyStr) =
        ['r', 'e', 'm', 'o', 'v', 'e', 'd'] ∧
      (⟨⟨30, 92, 32, 116⟩, ['h', 'i'], 8, greenColor⟩ :
        LabelCommand).color = redColor) :=
  c8_color_mapping (fun s _ => (s.length : ℚ)) 8 1 ⟨[], none⟩
    ⟨['+', ' ', 'h', 'i'], 30, 100, 31, 101, ['a', 'd', 'd', 'e', 'd']⟩
    [⟨⟨30, 92, 32, 116⟩, ['h', 'i'], 8, greenColor⟩]
    ⟨[(100, 32)], some (greenColor, ['h', 'i'])⟩
    (Or.inl ⟨rfl, by decide, by decide⟩)
    (by norm_num +decide [processDiff, resolveColorWord, overlapAdjust,
      dictLookup, dictInsert, Rect.is_empty, Rect.is_infinite,
      plusMarker, minusMarker])
    ⟨⟨30, 92, 32, 116⟩, ['h', 'i'], 8, greenColor⟩ (by simp)

/-- A word carrying either change marker always resolves to a color and
a stripped word. -/
theorem resolveColorWord_isSome_of_marker
    (last : Option ((ℚ × ℚ × ℚ) × PyStr)) (w : PyStr)
    (h : (plusMarker.isPrefixOf w || minusMarker.isPrefixOf w) = true) :
    (resolveColorWord last w).isSome = true := by
  unfold resolveColorWord
  rcases Bool.or_eq_true_iff.mp h with hp | hmv
  · simp [hp]
  · by_cases hp : plusMarker.isPrefixOf w <;> simp [hp, hmv]

/-- When the color resolution succeeds, the label-loop step never
fails. -/
theorem processDiff_ok_of_resolve (gtl : PyStr → ℚ → ℚ)
    (font_size quality : ℚ) (st : DiffState) (d : WordDiff)
    (h : (resolveColorWord st.last_assigned d.word).isSome = true) :
    ∃ r, processDiff gtl font_size quality st d = Except.ok r := by
  unfold processDiff
  cases hcw : resolveColorWord st.last_assigned d.word with
  | none => rw [hcw] at h; simp at h
  | some cw =>
    obtain ⟨tc, wt⟩ := cw
    dsimp only
    split
    · exact ⟨_, rfl⟩
    · exact ⟨_, rfl⟩

/-- With neither change marker on the word and nothing assigned yet, the
label-loop step fails (uninitialized Python locals). -/
theorem processDiff_error_of_unmarked (gtl : PyStr → ℚ → ℚ)
    (font_size quality : ℚ) (pos : List (ℚ × ℚ)) (d : WordDiff)
    (hp : plusMarker.isPrefixOf d.word = false)
    (hmv : minusMarker.isPrefixOf d.word = false) :
    processDiff gtl font_size quality ⟨pos, none⟩ d =
      Except.error () := by
  unfold processDiff
  rw [show resolveColorWord (⟨pos, none⟩ : DiffState).last_assigned
      d.word = none from by simp [resolveColorWord, hp, hmv]]

/-- The label loop runs to completion on any diff list whose words all
carry a change marker. -/
theorem runDiffs_ok_of_marked (gtl : PyStr → ℚ → ℚ)
    (font_size quality : ℚ) (ds : List WordDiff) : ∀ st : DiffState,
    (∀ d ∈ ds,
      (plusMarker.isPrefixOf d.word || minusMarker.isPrefixOf d.word) =
        true) →
    ∃ r, runDiffs gtl font_size quality st ds = Except.ok r := by
  induction ds with
  | nil => intro st _; exact ⟨_, rfl⟩
  | cons d rest ih =>
    intro st h
    obtain ⟨r1, h1⟩ := processDiff_ok_of_resolve gtl font_size quality
      st d (resolveColorWord_isSome_of_marker st.last_assigned d.word
        (h d (by simp)))
    obtain ⟨cs, st2⟩ := r1
    obtain ⟨r2, h2⟩ := ih st2 (fun d2 hd2 => h d2 (by simp [hd2]))
    obtain ⟨rest2, st3⟩ := r2
    refine ⟨(cs ++ rest2, st3), ?_⟩
    unfold runDiffs
    rw [h1]
    dsimp only
    rw [h2]

/-- C10: the label pass is total under the precondition that every
word-diff's text starts with "+ " or "- "; and when the first diff of
the page carries neither marker, the pass fails with the
uninitialized-variable error, since the Python locals holding the text
color and the stripped word are never assigned. -/
theorem c10_marker_precondition (gtl : PyStr → ℚ → ℚ)
    (font_size quality : ℚ) (diffs : List WordDiff) :
    ((∀ d ∈ diffs,
        (plusMarker.isPrefixOf d.word || minusMarker.isPrefixOf d.word) =
          true) →
      ∃ r, add_text_differences gtl font_size quality diffs =
        Except.ok r) ∧
    (∀ d ds, diffs = d :: ds →
      plusMarker.isPrefixOf d.word = false →
      minusMarker.isPrefixOf d.word = false →
      add_text_differences gtl font_size quality diffs =
        Except.error ()) := by
  constructor
  · intro h
    exact runDiffs_ok_of_marked gtl font_size quality diffs ⟨[], none⟩ h
  · intro d ds hd hp hmv
    subst hd
    unfold add_text_differences runDiffs
    rw [processDiff_error_of_unmarked gtl font_size quality [] d hp hmv]

/-- Witness for c10_marker_precondition: a marked diff list succeeds, an
unmarked first diff fails. -/
theorem c10_marker_precondition_witness :
    (∃ r, add_text_differences (fun _ _ => (1 : ℚ)) 8 1
      [⟨['+', ' ', 'a'], 5, 7, 6, 8, ['a', 'd', 'd', 'e', 'd']⟩] =
        Except.ok r) ∧
    add_text_differences (fun _ _ => (1 : ℚ)) 8 1
      [⟨['x'], 5, 7, 6, 8, ['a', 'd', 'd', 'e', 'd']⟩] =
        Except.error () :=
  ⟨(c10_marker_precondition (fun _ _ => (1 : ℚ)) 8 1
      [⟨['+', ' ', 'a'], 5, 7, 6, 8, ['a', 'd', 'd', 'e', 'd']⟩]).1
      (by intro d hd
          simp only [List.mem_singleton] at hd
          subst hd
          decide),
    (c10_marker_precondition (fun _ _ => (1 : ℚ)) 8 1
      [⟨['x'], 5, 7, 6, 8, ['a', 'd', 'd', 'e', 'd']⟩]).2
      ⟨['x'], 5, 7, 6, 8, ['a', 'd', 'd', 'e', 'd']⟩ [] rfl
      (by decide) (by decide)⟩

/-- Witness for c2_placement_monotone: a diff on line 100 colliding with
the stored extent 50 raises it to 55. -/
theorem c2_placement_monotone_witness :
    ∃ v2, dictLookup [((100 : ℚ), (55 : ℚ))] 100 = some v2 ∧ (50 : ℚ) ≤ v2 :=
  c2_placement_monotone (fun s _ => (s.length : ℚ)) 8 1
    [⟨['+', ' ', 'h', 'i'], 30, 100, 31, 101, ['a', 'd', 'd', 'e', 'd']⟩]
    ⟨[(100, 50)], none⟩
    [⟨⟨50, 92, 52, 116⟩, [' ', '>'], 8, blackColor⟩,
      ⟨⟨53, 92, 55, 116⟩, ['h', 'i'], 8, greenColor⟩]
    ⟨[(100, 55)], some (greenColor, ['h', 'i'])⟩ 100 50
    (fun s => by positivity)
    (by norm_num +decide [runDiffs, processDiff, resolveColorWord,
      overlapAdjust, dictLookup, dictInsert, Rect.is_empty,
      Rect.is_infinite, plusMarker, minusMarker])
    (by norm_num [dictLookup])
